import Mathlib

/-!
Verification of the multi-camera security tracking system.

This file shallowly embeds the core of the repository
(`multi_camera/global_tracker.py`, `multi_camera/camera_node.py`,
`multi_camera/communication_broker.py`, `orchestrator.py`) and proves
properties about the embedding.  Python dictionaries are modelled as
insertion-ordered association lists, floats as rationals (with real-valued
cosine similarity where the source takes square roots), raising code as
`Except`-valued functions, and each mutating method as a state-passing
function.
-/

namespace MultiCam

/-- Bounding boxes (`bbox` tuples) and `location` payloads: lists of integers. -/
abbrev Loc := List Int

/-- Feature signatures: real-valued vectors, modelled with rational entries. -/
abbrev Sig := List ℚ

/-- One entry of a target's `history` list (a Python dict).  `location` is
`none` for the entry appended by `register_new_threat`, which carries only
`camera_id` and `timestamp`. -/
structure HistEntry where
  camera_id : String
  location : Option Loc
  timestamp : ℚ
deriving DecidableEq

/-- Embedding of the `TargetState` dataclass of `global_tracker.py`:
`global_id`, `history` (default `[]`) and `current_camera` (default `None`). -/
structure TargetState where
  global_id : String
  history : List HistEntry := []
  current_camera : Option String := none
deriving DecidableEq

/-- Lookup in an insertion-ordered association list (Python `dict.get`). -/
def lookupA {β : Type} : List (String × β) → String → Option β
  | [], _ => none
  | (k, v) :: rest, key => if k = key then some v else lookupA rest key

/-- Store under a key in an insertion-ordered association list (Python
`dict[key] = value`): replace in place when the key is present, else append. -/
def setA {β : Type} : List (String × β) → String → β → List (String × β)
  | [], key, v => [(key, v)]
  | (k, w) :: rest, key, v =>
      if k = key then (k, v) :: rest else (k, w) :: setA rest key v

/-- Embedding of the `GlobalTracker` class state: `self.targets` (a dict from
global id to `TargetState`) and `self._next_id` (an int starting at 0). -/
structure GlobalTracker where
  targets : List (String × TargetState) := []
  next_id : Nat := 0
deriving DecidableEq

/-- The freshly constructed tracker (`GlobalTracker.__init__`). -/
def GlobalTracker.empty : GlobalTracker := {}

/-- Embedding of `GlobalTracker.register_new_threat`: mint the id
`f"T{self._next_id}"`, bump the counter, store a fresh `TargetState` whose
history holds the single entry `{"camera_id": camera_id, "timestamp":
timestamp}`, and return the minted id.  The `signature` argument is accepted
and, as in the source, not stored. -/
def registerNewThreat (t : GlobalTracker) (camera_id : String) (signature : Sig)
    (timestamp : ℚ) : String × GlobalTracker :=
  let global_id := "T" ++ Nat.repr t.next_id
  let state : TargetState :=
    { global_id := global_id
      current_camera := some camera_id
      history := [{ camera_id := camera_id, location := none, timestamp := timestamp }] }
  (global_id, { targets := setA t.targets global_id state, next_id := t.next_id + 1 })

/-- Embedding of `GlobalTracker.handle_reid_match`:
`self.targets.setdefault(global_id, TargetState(global_id=global_id))`, then
set `current_camera` and append `{"camera_id", "location", "timestamp"}` to
that state's history.  The unused `signature` never appears here, matching the
source. -/
def handleReidMatch (t : GlobalTracker) (global_id camera_id : String)
    (location : Option Loc) (timestamp : ℚ) : GlobalTracker :=
  let state := (lookupA t.targets global_id).getD { global_id := global_id }
  let state2 : TargetState :=
    { state with
      current_camera := some camera_id
      history := state.history ++
        [{ camera_id := camera_id, location := location, timestamp := timestamp }] }
  { t with targets := setA t.targets global_id state2 }

/-- Embedding of `GlobalTracker.get_target_trajectory`: the stored history, or
`[]` when the id is unknown. -/
def getTargetTrajectory (t : GlobalTracker) (global_id : String) : List HistEntry :=
  match lookupA t.targets global_id with
  | some state => state.history
  | none => []

/-- One mutating call on the tracker, for reasoning about call sequences. -/
inductive Op where
  | register (camera_id : String) (signature : Sig) (timestamp : ℚ)
  | reid (global_id camera_id : String) (location : Option Loc) (timestamp : ℚ)
deriving DecidableEq

/-- Apply one tracker operation. -/
def applyOp (t : GlobalTracker) : Op → GlobalTracker
  | .register c s ts => (registerNewThreat t c s ts).2
  | .reid g c l ts => handleReidMatch t g c l ts

/-- Apply a sequence of tracker operations in order. -/
def applyOps (t : GlobalTracker) : List Op → GlobalTracker
  | [] => t
  | op :: ops => applyOps (applyOp t op) ops

/-- The global ids returned by the `register_new_threat` calls of a sequence,
in order of processing. -/
def mintedIds (t : GlobalTracker) : List Op → List String
  | [] => []
  | .register c s ts :: ops =>
      (registerNewThreat t c s ts).1 :: mintedIds (registerNewThreat t c s ts).2 ops
  | .reid g c l ts :: ops => mintedIds (handleReidMatch t g c l ts) ops

/-- Number of `register_new_threat` calls in a sequence. -/
def regCount : List Op → Nat
  | [] => 0
  | .register _ _ _ :: ops => regCount ops + 1
  | .reid _ _ _ _ :: ops => regCount ops

/-! ### Association-list lemmas -/

theorem lookupA_setA_self {β : Type} (m : List (String × β)) (k : String) (v : β) :
    lookupA (setA m k v) k = some v := by
  induction m with
  | nil => simp [lookupA, setA]
  | cons p rest ih =>
      obtain ⟨k', w⟩ := p
      by_cases h : k' = k
      · simp [lookupA, setA, h]
      · simp [lookupA, setA, h, ih]

theorem lookupA_setA_ne {β : Type} (m : List (String × β)) (k g : String) (v : β)
    (h : g ≠ k) : lookupA (setA m k v) g = lookupA m g := by
  have h' : ¬k = g := fun hk => h hk.symm
  induction m with
  | nil => simp [lookupA, setA, h']
  | cons p rest ih =>
      obtain ⟨k', w⟩ := p
      by_cases hk : k' = k
      · subst hk
        simp [lookupA, setA, h']
      · simp only [setA, hk, if_false, lookupA]
        by_cases hg : k' = g <;> simp [hg, ih]

/-! ### Injectivity of the decimal printer behind `f"T{self._next_id}"` -/

/-- Decimal digit-character list of a natural number, most significant digit
first: the specification of `Nat.toDigits 10`. -/
def decChars (n : Nat) : List Char :=
  if n < 10 then [Nat.digitChar n]
  else decChars (n / 10) ++ [Nat.digitChar (n % 10)]
termination_by n
decreasing_by exact Nat.div_lt_self (by omega) (by omega)

theorem decChars_lt {n : Nat} (h : n < 10) : decChars n = [Nat.digitChar n] := by
  rw [decChars, if_pos h]

theorem decChars_ge {n : Nat} (h : ¬n < 10) :
    decChars n = decChars (n / 10) ++ [Nat.digitChar (n % 10)] := by
  rw [decChars, if_neg h]

theorem decChars_ne_nil (n : Nat) : decChars n ≠ [] := by
  by_cases h : n < 10
  · simp [decChars_lt h]
  · simp [decChars_ge h]

theorem digitChar_inj_lt {a b : Nat} (ha : a < 10) (hb : b < 10)
    (h : Nat.digitChar a = Nat.digitChar b) : a = b := by
  interval_cases a <;> interval_cases b <;> simp_all [Nat.digitChar]

theorem toDigitsCore_eq_decChars :
    ∀ (f n : Nat) (acc : List Char), n < f →
      Nat.toDigitsCore 10 f n acc = decChars n ++ acc := by
  intro f
  induction f with
  | zero => omega
  | succ f ih =>
      intro n acc hn
      by_cases h0 : n / 10 = 0
      · have hlt : n < 10 := by omega
        simp [Nat.toDigitsCore, h0, decChars, hlt, Nat.mod_eq_of_lt hlt]
      · have hge : ¬n < 10 := by omega
        have hdiv : n / 10 < f := by
          have hlt : n / 10 < n := Nat.div_lt_self (by omega) (by omega)
          omega
        rw [decChars_ge hge]
        simp only [Nat.toDigitsCore, h0, if_false, ih (n / 10) _ hdiv,
          List.append_assoc, List.singleton_append]

theorem toDigits_eq_decChars (n : Nat) : Nat.toDigits 10 n = decChars n := by
  have h := toDigitsCore_eq_decChars (n + 1) n [] (Nat.lt_succ_self n)
  simpa [Nat.toDigits] using h

theorem decChars_injective : ∀ m n : Nat, decChars m = decChars n → m = n := by
  intro m
  induction m using Nat.strong_induction_on with
  | _ m ih =>
      intro n h
      by_cases hm : m < 10 <;> by_cases hn : n < 10
      · rw [decChars_lt hm, decChars_lt hn] at h
        exact digitChar_inj_lt hm hn (List.singleton_inj.mp h)
      · exfalso
        rw [decChars_lt hm, decChars_ge hn] at h
        have hlen0 := congrArg List.length h
        have hlen : 0 < (decChars (n / 10)).length :=
          List.length_pos.mpr (decChars_ne_nil _)
        simp only [List.length_singleton, List.length_append, List.length_cons,
          List.length_nil] at hlen0
        omega
      · exfalso
        rw [decChars_ge hm, decChars_lt hn] at h
        have hlen0 := congrArg List.length h
        have hlen : 0 < (decChars (m / 10)).length :=
          List.length_pos.mpr (decChars_ne_nil _)
        simp only [List.length_singleton, List.length_append, List.length_cons,
          List.length_nil] at hlen0
        omega
      · rw [decChars_ge hm, decChars_ge hn] at h
        obtain ⟨h1, h2⟩ := List.append_inj' h (by simp)
        have hq : m / 10 = n / 10 :=
          ih (m / 10) (Nat.div_lt_self (by omega) (by omega)) _ h1
        have hr : m % 10 = n % 10 :=
          digitChar_inj_lt (Nat.mod_lt _ (by omega)) (Nat.mod_lt _ (by omega))
            (List.singleton_inj.mp h2)
        omega

theorem natRepr_injective : Function.Injective Nat.repr := by
  intro m n h
  have h' : Nat.toDigits 10 m = Nat.toDigits 10 n := by
    have := congrArg String.data h
    simpa [Nat.repr, List.asString] using this
  rw [toDigits_eq_decChars, toDigits_eq_decChars] at h'
  exact decChars_injective m n h'

theorem tId_injective : Function.Injective (fun k : Nat => "T" ++ Nat.repr k) := by
  intro m n h
  apply natRepr_injective
  have hd := congrArg String.data h
  simp only [String.data_append] at hd
  apply String.ext
  exact List.append_cancel_left hd

/-! ### Claim C1: minted global ids -/

theorem handleReidMatch_next_id (t : GlobalTracker) (g c : String) (l : Option Loc)
    (ts : ℚ) : (handleReidMatch t g c l ts).next_id = t.next_id := rfl

theorem mintedIds_eq (ops : List Op) : ∀ t : GlobalTracker,
    mintedIds t ops
      = (List.range (regCount ops)).map (fun k => "T" ++ Nat.repr (t.next_id + k)) := by
  induction ops with
  | nil => intro t; rfl
  | cons op ops ih =>
      intro t
      cases op with
      | register c s ts =>
          have hfun : (fun k => "T" ++ Nat.repr (t.next_id + 1 + k))
              = ((fun k => "T" ++ Nat.repr (t.next_id + k)) ∘ Nat.succ) := by
            funext k
            simp only [Function.comp_apply, Nat.succ_eq_add_one]
            rw [Nat.add_comm k 1, ← Nat.add_assoc]
          have hnext : ((registerNewThreat t c s ts).2).next_id = t.next_id + 1 := rfl
          have hhead : (registerNewThreat t c s ts).1 = "T" ++ Nat.repr t.next_id := rfl
          simp only [mintedIds, regCount, ih, hnext, hhead, List.range_succ_eq_map,
            List.map_cons, List.map_map, Nat.add_zero]
          rw [← hfun]
      | reid g c l ts =>
          simp only [mintedIds, regCount, ih, handleReidMatch_next_id]

/-- Claim C1: over every sequence of tracker operations, the global ids
returned by `register_new_threat` follow the monotonic counter exactly (the
k-th registration from a fresh tracker returns `"T" ++ Nat.repr k`), are
pairwise distinct (no id is ever repeated or reused), and the first
registration receives id `"T0"`. -/
theorem minted_global_ids_distinct_monotonic (ops : List Op) :
    mintedIds GlobalTracker.empty ops
        = (List.range (regCount ops)).map (fun k => "T" ++ Nat.repr k)
    ∧ (mintedIds GlobalTracker.empty ops).Nodup
    ∧ (0 < regCount ops →
        (mintedIds GlobalTracker.empty ops).head? = some ("T0")) := by
  have hchar := mintedIds_eq ops GlobalTracker.empty
  have hz : GlobalTracker.empty.next_id = 0 := rfl
  rw [hz] at hchar
  simp only [Nat.zero_add] at hchar
  refine ⟨hchar, ?_, ?_⟩
  · rw [hchar]
    exact (List.nodup_range _).map tId_injective
  · intro hpos
    rw [hchar]
    obtain ⟨m, hm⟩ : ∃ m, regCount ops = m + 1 :=
      ⟨regCount ops - 1, by omega⟩
    rw [hm, List.range_succ_eq_map]
    rfl

/-- Witness for Claim C1 at a concrete one-registration run. -/
theorem minted_global_ids_distinct_monotonic_witness :
    (mintedIds GlobalTracker.empty [Op.register ("c0") [] 0]).head? = some ("T0") :=
  (minted_global_ids_distinct_monotonic [Op.register ("c0") [] 0]).2.2 (by decide)

/-! ### Frame lemmas for the tracker operations -/

theorem handleReidMatch_lookup_ne (t : GlobalTracker) (gid cam : String)
    (loc : Option Loc) (ts : ℚ) (g : String) (h : g ≠ gid) :
    lookupA (handleReidMatch t gid cam loc ts).targets g = lookupA t.targets g :=
  lookupA_setA_ne _ _ _ _ h

theorem register_lookup_ne (t : GlobalTracker) (cam : String) (sig : Sig) (ts : ℚ)
    (g : String) (h : g ≠ "T" ++ Nat.repr t.next_id) :
    lookupA ((registerNewThreat t cam sig ts).2).targets g = lookupA t.targets g :=
  lookupA_setA_ne _ _ _ _ h

theorem register_lookup_minted (t : GlobalTracker) (cam : String) (sig : Sig) (ts : ℚ) :
    lookupA ((registerNewThreat t cam sig ts).2).targets ("T" ++ Nat.repr t.next_id)
      = some { global_id := "T" ++ Nat.repr t.next_id
               history := [{ camera_id := cam, location := none, timestamp := ts }]
               current_camera := some cam } :=
  lookupA_setA_self _ _ _

theorem handleReidMatch_lookup_self (t : GlobalTracker) (gid cam : String)
    (loc : Option Loc) (ts : ℚ) :
    lookupA (handleReidMatch t gid cam loc ts).targets gid
      = some { ((lookupA t.targets gid).getD { global_id := gid }) with
               current_camera := some cam
               history := ((lookupA t.targets gid).getD { global_id := gid }).history ++
                 [{ camera_id := cam, location := loc, timestamp := ts }] } :=
  lookupA_setA_self _ _ _

/-! ### Claim C5: handle_reid_match is total and defensive -/

/-- Claim C5: `handle_reid_match` never faults.  For every `global_id` the
target afterwards exists, has `current_camera` set to the match's camera and
has the entry `{camera_id, location, timestamp}` appended to its previous
history; when no `TargetState` existed for that id a placeholder keyed by that
id is created rather than the match being dropped. -/
theorem handle_reid_match_total_defensive (t : GlobalTracker) (gid cam : String)
    (loc : Option Loc) (ts : ℚ) :
    (∃ s2, lookupA (handleReidMatch t gid cam loc ts).targets gid = some s2
        ∧ s2.current_camera = some cam
        ∧ s2.history = getTargetTrajectory t gid ++
            [{ camera_id := cam, location := loc, timestamp := ts }])
    ∧ (lookupA t.targets gid = none →
        lookupA (handleReidMatch t gid cam loc ts).targets gid
          = some { global_id := gid
                   history := [{ camera_id := cam, location := loc, timestamp := ts }]
                   current_camera := some cam }) := by
  constructor
  · refine ⟨_, handleReidMatch_lookup_self t gid cam loc ts, rfl, ?_⟩
    cases h : lookupA t.targets gid <;>
      simp [getTargetTrajectory, h, Option.getD, TargetState.history]
  · intro hnone
    rw [handleReidMatch_lookup_self t gid cam loc ts, hnone]
    rfl

/-- Witness for Claim C5: a re-identification match for an id the fresh
tracker has never seen creates the placeholder target. -/
theorem handle_reid_match_total_defensive_witness :
    lookupA (handleReidMatch GlobalTracker.empty ("T9") ("c1") (some [1, 2, 3, 4])
        5).targets ("T9")
      = some { global_id := ("T9")
               history := [{ camera_id := ("c1"), location := some [1, 2, 3, 4],
                             timestamp := 5 }]
               current_camera := some ("c1") } :=
  (handle_reid_match_total_defensive GlobalTracker.empty ("T9") ("c1")
    (some [1, 2, 3, 4]) 5).2 rfl

/-! ### Claim C6: trajectories -/

/-- Claim C6: `get_target_trajectory` of an unknown id is the empty sequence
(never an error), and after one registration for camera `"c0"` at timestamp
100 (which returns id `"T0"`) followed by `handle_reid_match("T0", "c1",
[1,2,3,4], 101)`, the trajectory of `"T0"` is exactly the two entries in
arrival order, the first without a location. -/
theorem trajectory_unknown_empty_and_scenario (sig : Sig) :
    (∀ (t : GlobalTracker) (gid : String), lookupA t.targets gid = none →
        getTargetTrajectory t gid = [])
    ∧ (registerNewThreat GlobalTracker.empty ("c0") sig 100).1 = ("T0")
    ∧ getTargetTrajectory
        (handleReidMatch (registerNewThreat GlobalTracker.empty ("c0") sig 100).2
          ("T0") ("c1") (some [1, 2, 3, 4]) 101) ("T0")
        = [{ camera_id := ("c0"), location := none, timestamp := 100 },
           { camera_id := ("c1"), location := some [1, 2, 3, 4], timestamp := 101 }] := by
  refine ⟨?_, rfl, rfl⟩
  intro t gid h
  simp [getTargetTrajectory, h]

/-- Witness for Claim C6: an unknown id on the fresh tracker yields `[]`. -/
theorem trajectory_unknown_empty_and_scenario_witness :
    getTargetTrajectory GlobalTracker.empty ("ghost") = [] :=
  (trajectory_unknown_empty_and_scenario []).1 GlobalTracker.empty ("ghost") rfl

/-! ### Claim C9: history is append-only (corrected) -/

/-- Check along a run that every `register_new_threat` mints an id that is not
already a key of `targets` (in particular, not a placeholder previously
created by `handle_reid_match`). -/
def registersFresh (t : GlobalTracker) : List Op → Bool
  | [] => true
  | .register c s ts :: ops =>
      (lookupA t.targets ("T" ++ Nat.repr t.next_id)).isNone
        && registersFresh (applyOp t (.register c s ts)) ops
  | .reid g c l ts :: ops => registersFresh (applyOp t (.reid g c l ts)) ops

theorem traj_prefix_reid (t : GlobalTracker) (gid cam : String) (loc : Option Loc)
    (ts : ℚ) (g : String) :
    getTargetTrajectory t g <+: getTargetTrajectory (handleReidMatch t gid cam loc ts) g := by
  by_cases h : g = gid
  · subst h
    have hs := handleReidMatch_lookup_self t g cam loc ts
    cases hl : lookupA t.targets g with
    | none =>
        rw [hl] at hs
        simp only [getTargetTrajectory, hs, hl, Option.getD_none]
        exact List.nil_prefix
    | some s =>
        rw [hl] at hs
        simp only [getTargetTrajectory, hs, hl, Option.getD_some]
        exact List.prefix_append _ _
  · have hs := handleReidMatch_lookup_ne t gid cam loc ts g h
    simp only [getTargetTrajectory, hs]
    exact List.prefix_refl _

theorem traj_prefix_register_fresh (t : GlobalTracker) (cam : String) (sig : Sig)
    (ts : ℚ) (g : String)
    (hfresh : lookupA t.targets ("T" ++ Nat.repr t.next_id) = none) :
    getTargetTrajectory t g <+:
      getTargetTrajectory ((registerNewThreat t cam sig ts).2) g := by
  by_cases h : g = "T" ++ Nat.repr t.next_id
  · subst h
    simp only [getTargetTrajectory, register_lookup_minted, hfresh]
    exact List.nil_prefix
  · simp only [getTargetTrajectory, register_lookup_ne t cam sig ts g h]
    exact List.prefix_refl _

/-- Claim C9 (amended): as long as every `register_new_threat` in the run
mints an id not already present in `targets`, histories are append-only: the
history a target had before the run is a prefix of its history afterwards.
(When the minted id collides with a placeholder created earlier by
`handle_reid_match`, `register_new_threat` replaces that target's state, so
the unconditional claim fails; see the counterexample.) -/
theorem history_append_only (ops : List Op) : ∀ t : GlobalTracker,
    registersFresh t ops = true → ∀ g : String,
      getTargetTrajectory t g <+: getTargetTrajectory (applyOps t ops) g := by
  induction ops with
  | nil => intro t _ g; exact List.prefix_refl _
  | cons op ops ih =>
      intro t hfresh g
      cases op with
      | register c s ts =>
          simp only [registersFresh, Bool.and_eq_true, Option.isNone_iff_eq_none] at hfresh
          exact (traj_prefix_register_fresh t c s ts g hfresh.1).trans
            (ih (applyOp t (.register c s ts)) hfresh.2 g)
      | reid gid cam loc ts =>
          simp only [registersFresh] at hfresh
          exact (traj_prefix_reid t gid cam loc ts g).trans
            (ih (applyOp t (.reid gid cam loc ts)) hfresh g)

/-- Witness for Claim C9 on a concrete collision-free run. -/
theorem history_append_only_witness :
    getTargetTrajectory GlobalTracker.empty ("T0") <+:
      getTargetTrajectory
        (applyOps GlobalTracker.empty
          [Op.register ("c0") [] 1, Op.reid ("T0") ("c1") (some [1, 2, 3, 4]) 2]) ("T0") :=
  history_append_only
    [Op.register ("c0") [] 1, Op.reid ("T0") ("c1") (some [1, 2, 3, 4]) 2]
    GlobalTracker.empty (by decide) ("T0")

/-- Counterexample to Claim C9 as stated: a `handle_reid_match` for the not yet
minted id `"T0"` creates a placeholder, and the next `register_new_threat`
mints `"T0"` and replaces that placeholder's state, so the placeholder's
history is not a prefix of the history afterwards. -/
theorem history_append_only_counterexample :
    ¬ (getTargetTrajectory
         (handleReidMatch GlobalTracker.empty ("T0") ("c1") (some [1, 2, 3, 4]) 5) ("T0")
       <+: getTargetTrajectory
         (applyOps (handleReidMatch GlobalTracker.empty ("T0") ("c1") (some [1, 2, 3, 4]) 5)
           [Op.register ("c0") [] 7]) ("T0")) := by
  decide

/-! ### Claim C10: each operation touches only its own target (corrected) -/

/-- Claim C10 (amended): `handle_reid_match(g, ...)` leaves every target with
id different from `g` unchanged; `register_new_threat` leaves every target
whose id differs from the freshly minted id `"T" ++ Nat.repr next_id`
unchanged, and stores a fresh single-entry state under the minted id —
replacing whatever placeholder may already sit at that id (so pre-existing
state is preserved only away from the minted id; see the counterexample). -/
theorem tracker_ops_frame :
    (∀ (t : GlobalTracker) (gid cam : String) (loc : Option Loc) (ts : ℚ) (g : String),
        g ≠ gid →
        lookupA (handleReidMatch t gid cam loc ts).targets g = lookupA t.targets g)
    ∧ (∀ (t : GlobalTracker) (cam : String) (sig : Sig) (ts : ℚ) (g : String),
        g ≠ "T" ++ Nat.repr t.next_id →
        lookupA ((registerNewThreat t cam sig ts).2).targets g = lookupA t.targets g)
    ∧ (∀ (t : GlobalTracker) (cam : String) (sig : Sig) (ts : ℚ),
        lookupA ((registerNewThreat t cam sig ts).2).targets ("T" ++ Nat.repr t.next_id)
          = some { global_id := "T" ++ Nat.repr t.next_id
                   history := [{ camera_id := cam, location := none, timestamp := ts }]
                   current_camera := some cam }) :=
  ⟨handleReidMatch_lookup_ne, register_lookup_ne, register_lookup_minted⟩

/-- Witness for Claim C10 at concrete states. -/
theorem tracker_ops_frame_witness :
    lookupA (handleReidMatch GlobalTracker.empty ("T0") ("c1") none 3).targets ("T7")
      = lookupA GlobalTracker.empty.targets ("T7") :=
  tracker_ops_frame.1 GlobalTracker.empty ("T0") ("c1") none 3 ("T7") (by decide)

/-- Counterexample to Claim C10 as stated: `register_new_threat` does not
leave every pre-existing target unchanged — when its minted id collides with
a placeholder created by `handle_reid_match`, that pre-existing target's
state is replaced. -/
theorem tracker_ops_frame_counterexample :
    lookupA ((registerNewThreat
        (handleReidMatch GlobalTracker.empty ("T0") ("c1") (some [1, 2, 3, 4]) 5)
        ("c0") [] 7).2).targets ("T0")
      ≠ lookupA
          (handleReidMatch GlobalTracker.empty ("T0") ("c1") (some [1, 2, 3, 4]) 5).targets
          ("T0") := by
  decide

/-! ### Alert dictionaries and the broker's drain -/

/-- An alert as it travels through the broker: a JSON dictionary whose keys
may each be absent.  `publish_threat_alert`, `publish_id_assignment` and
`publish_reid_match` each populate a subset of these keys. -/
structure AlertMsg where
  type : Option String := none
  camera_id : Option String := none
  global_id : Option String := none
  signature : Option Sig := none
  location : Option Loc := none
  timestamp : Option ℚ := none
deriving DecidableEq

/-- The `zmq` subscriber socket's `recv_json(flags=zmq.NOBLOCK)` call on its
inbound FIFO queue (the socket's documented interface, external to the
repository): return the oldest queued alert plus the rest of the queue, or
raise `zmq.Again` (`Except.error`) when nothing is queued. -/
def recvJsonNoblock : List AlertMsg → Except Unit (AlertMsg × List AlertMsg)
  | [] => Except.error ()
  | a :: q => Except.ok (a, q)

/-- Embedding of the loop body of `CommunicationBroker.drain`: keep calling
`recv_json(NOBLOCK)` and appending the result to `alerts` until the socket
raises `Again`; returns the collected alerts together with what remains
queued. -/
def drainAux (acc : List AlertMsg) (q : List AlertMsg) :
    List AlertMsg × List AlertMsg :=
  match h : recvJsonNoblock q with
  | Except.error _ => (acc, q)
  | Except.ok (a, q2) => drainAux (acc ++ [a]) q2
termination_by q.length
decreasing_by
  cases q with
  | nil => exact absurd h (by simp [recvJsonNoblock])
  | cons b rest =>
      simp only [recvJsonNoblock, Except.ok.injEq, Prod.mk.injEq] at h
      rw [← h.2]
      simp

/-- Embedding of `CommunicationBroker.drain` (static method): start with the
empty `alerts` list. -/
def drain (q : List AlertMsg) : List AlertMsg × List AlertMsg := drainAux [] q

theorem drainAux_spec (q : List AlertMsg) : ∀ acc, drainAux acc q = (acc ++ q, []) := by
  induction q with
  | nil => intro acc; rw [drainAux]; simp [recvJsonNoblock]
  | cons a rest ih =>
      intro acc
      rw [drainAux]
      simp only [recvJsonNoblock, ih, List.append_assoc, List.singleton_append]

/-- Claim C7: `drain` is functionally non-blocking (total), returns in FIFO
order exactly the alerts queued since the subscription's last drain, leaves
the backing queue empty, and returns the empty sequence — not an error — when
nothing is pending. -/
theorem drain_fifo_exact :
    (∀ q : List AlertMsg, drain q = (q, []))
    ∧ drain [] = ([], [])
    ∧ (∀ q fresh : List AlertMsg, drain ((drain q).2 ++ fresh) = (fresh, [])) := by
  have hq : ∀ q : List AlertMsg, drain q = (q, []) := by
    intro q
    rw [drain, drainAux_spec]
    simp
  exact ⟨hq, hq [], fun q fresh => by rw [hq q]; simpa using hq fresh⟩

/-- Witness for Claim C7 on a concrete one-element queue. -/
theorem drain_fifo_exact_witness :
    drain [{ type := some ("NEW_THREAT") }] = ([{ type := some ("NEW_THREAT") }], []) :=
  drain_fifo_exact.1 [{ type := some ("NEW_THREAT") }]

/-! ### Cosine similarity of `CameraNode.search_for_target` -/

/-- Dot product of two vectors (`np.dot` on equal-length 1-D arrays). -/
def dotQ : Sig → Sig → ℚ
  | x :: xs, y :: ys => x * y + dotQ xs ys
  | _, _ => 0

/-- Squared Euclidean norm, so that `np.linalg.norm a = Real.sqrt (normSq a)`. -/
def normSq (a : Sig) : ℚ := dotQ a a

/-- The stabiliser `1e-8` added to the denominator in `search_for_target`. -/
def npEps : ℚ := 1 / 100000000

/-- The cosine similarity computed in `search_for_target`:
`np.dot(stored_sig, signature) / (np.linalg.norm(stored_sig) *
np.linalg.norm(signature) + 1e-8)`. -/
noncomputable def sim (a b : Sig) : ℝ :=
  (dotQ a b : ℝ) /
    (Real.sqrt ((normSq a : ℚ) : ℝ) * Real.sqrt ((normSq b : ℚ) : ℝ) + ((npEps : ℚ) : ℝ))

/-- Executable version of the test `similarity > 0.85`, obtained from the
real-valued inequality by clearing the positive denominator and squaring away
the square roots; `exceedsThreshold_iff` proves it equivalent to
`0.85 < sim a b`. -/
def exceedsThreshold (a b : Sig) : Bool :=
  decide (0 < dotQ a b - 17 / 20 * npEps
    ∧ 289 / 400 * (normSq a * normSq b) < (dotQ a b - 17 / 20 * npEps) ^ 2)

theorem normSq_nonneg (a : Sig) : 0 ≤ normSq a := by
  induction a with
  | nil => simp [normSq, dotQ]
  | cons x xs ih =>
      have hx : 0 ≤ x * x := mul_self_nonneg x
      simpa [normSq, dotQ] using add_nonneg hx ih

theorem dotQ_comm (a : Sig) : ∀ b : Sig, dotQ a b = dotQ b a := by
  induction a with
  | nil => intro b; cases b <;> simp [dotQ]
  | cons x xs ih =>
      intro b
      cases b with
      | nil => simp [dotQ]
      | cons y ys => simp [dotQ, ih, mul_comm]

theorem npEps_pos : (0 : ℚ) < npEps := by norm_num [npEps]

theorem exceedsThreshold_iff (a b : Sig) :
    exceedsThreshold a b = true ↔ (0.85 : ℝ) < sim a b := by
  have hna : (0 : ℝ) ≤ ((normSq a : ℚ) : ℝ) := by exact_mod_cast normSq_nonneg a
  have hnb : (0 : ℝ) ≤ ((normSq b : ℚ) : ℝ) := by exact_mod_cast normSq_nonneg b
  have hXnn : (0 : ℝ) ≤ Real.sqrt ((normSq a : ℚ) : ℝ) * Real.sqrt ((normSq b : ℚ) : ℝ) :=
    mul_nonneg (Real.sqrt_nonneg _) (Real.sqrt_nonneg _)
  have hepsR : (0 : ℝ) < ((npEps : ℚ) : ℝ) := by exact_mod_cast npEps_pos
  have hden : (0 : ℝ)
      < Real.sqrt ((normSq a : ℚ) : ℝ) * Real.sqrt ((normSq b : ℚ) : ℝ) + ((npEps : ℚ) : ℝ) :=
    lt_of_lt_of_le hepsR (le_add_of_nonneg_left hXnn)
  rw [exceedsThreshold, decide_eq_true_eq, sim, lt_div_iff₀ hden]
  have h085 : (0.85 : ℝ) = 17 / 20 := by norm_num
  constructor
  · rintro ⟨hc, hsq⟩
    have hcR : (0 : ℝ) < (dotQ a b : ℝ) - 17 / 20 * ((npEps : ℚ) : ℝ) := by
      have h0 := (Rat.cast_lt (K := ℝ)).mpr hc
      push_cast at h0
      linarith [h0]
    have hsqR : (289 / 400 : ℝ) * (((normSq a : ℚ) : ℝ) * ((normSq b : ℚ) : ℝ))
        < ((dotQ a b : ℝ) - 17 / 20 * ((npEps : ℚ) : ℝ)) ^ 2 := by
      have h0 := (Rat.cast_lt (K := ℝ)).mpr hsq
      push_cast at h0
      nlinarith [h0]
    have hXsq : (17 / 20 * (Real.sqrt ((normSq a : ℚ) : ℝ) * Real.sqrt ((normSq b : ℚ) : ℝ))) ^ 2
        = 289 / 400 * (((normSq a : ℚ) : ℝ) * ((normSq b : ℚ) : ℝ)) := by
      rw [mul_pow, mul_pow, Real.sq_sqrt hna, Real.sq_sqrt hnb]
      norm_num
    have hlt : 17 / 20 * (Real.sqrt ((normSq a : ℚ) : ℝ) * Real.sqrt ((normSq b : ℚ) : ℝ))
        < (dotQ a b : ℝ) - 17 / 20 * ((npEps : ℚ) : ℝ) := by
      refine lt_of_pow_lt_pow_left₀ 2 (le_of_lt hcR) ?_
      rw [hXsq]
      exact hsqR
    rw [h085]
    nlinarith [hlt]
  · intro h
    rw [h085] at h
    have hlt : 17 / 20 * (Real.sqrt ((normSq a : ℚ) : ℝ) * Real.sqrt ((normSq b : ℚ) : ℝ))
        < (dotQ a b : ℝ) - 17 / 20 * ((npEps : ℚ) : ℝ) := by nlinarith [h]
    have hcR : (0 : ℝ) < (dotQ a b : ℝ) - 17 / 20 * ((npEps : ℚ) : ℝ) :=
      lt_of_le_of_lt (by positivity) hlt
    have hsqR : (17 / 20 * (Real.sqrt ((normSq a : ℚ) : ℝ) * Real.sqrt ((normSq b : ℚ) : ℝ))) ^ 2
        < ((dotQ a b : ℝ) - 17 / 20 * ((npEps : ℚ) : ℝ)) ^ 2 :=
      pow_lt_pow_left₀ hlt (by positivity) (by norm_num)
    have hXsq : (17 / 20 * (Real.sqrt ((normSq a : ℚ) : ℝ) * Real.sqrt ((normSq b : ℚ) : ℝ))) ^ 2
        = 289 / 400 * (((normSq a : ℚ) : ℝ) * ((normSq b : ℚ) : ℝ)) := by
      rw [mul_pow, mul_pow, Real.sq_sqrt hna, Real.sq_sqrt hnb]
      norm_num
    rw [hXsq] at hsqR
    constructor
    · have h0 : ((0 : ℚ) : ℝ) < ((dotQ a b - 17 / 20 * npEps : ℚ) : ℝ) := by
        push_cast
        linarith [hcR]
      exact_mod_cast h0
    · have h0 : ((289 / 400 * (normSq a * normSq b) : ℚ) : ℝ)
          < (((dotQ a b - 17 / 20 * npEps) ^ 2 : ℚ) : ℝ) := by
        push_cast
        nlinarith [hsqR]
      exact_mod_cast h0

/-! ### CameraNode.search_for_target -/

/-- One record of the per-frame detection buffer `self._frame_detections`. -/
structure FrameDet where
  bbox : Loc
  signature : Sig
deriving DecidableEq

/-- A REID_MATCH message as published by `publish_reid_match`. -/
structure ReidMatchMsg where
  global_id : String
  camera_id : String
  location : Loc
  timestamp : ℚ
deriving DecidableEq

/-- Embedding of the comparison loop of `search_for_target`: walk the buffered
detections in order; on the first whose similarity with the alert's signature
exceeds 0.85, publish one REID_MATCH built from the alert's `global_id`
(default `"unknown"`), the camera, that detection's bbox and the current time,
then `break`. -/
def searchLoop (camera_id : String) (asig : Sig) (gid : String) (now : ℚ) :
    List FrameDet → List ReidMatchMsg
  | [] => []
  | det :: rest =>
      if exceedsThreshold det.signature asig then
        [{ global_id := gid, camera_id := camera_id, location := det.bbox,
           timestamp := now }]
      else searchLoop camera_id asig gid now rest

/-- Embedding of `CameraNode.search_for_target`: return immediately when the
alert carries no signature, otherwise run the comparison loop over the
detection buffer.  The returned list is the sequence of REID_MATCH messages
published for this alert. -/
def searchForTarget (camera_id : String) (dets : List FrameDet) (alert : AlertMsg)
    (now : ℚ) : List ReidMatchMsg :=
  match alert.signature with
  | none => []
  | some s => searchLoop camera_id s (alert.global_id.getD ("unknown")) now dets

theorem searchLoop_length_le_one (camera_id : String) (asig : Sig) (gid : String)
    (now : ℚ) : ∀ dets : List FrameDet,
      (searchLoop camera_id asig gid now dets).length ≤ 1 := by
  intro dets
  induction dets with
  | nil => simp [searchLoop]
  | cons det rest ih =>
      rw [searchLoop]
      by_cases h : exceedsThreshold det.signature asig <;> simp [h, ih]

theorem searchLoop_none (camera_id : String) (asig : Sig) (gid : String) (now : ℚ)
    (dets : List FrameDet)
    (h : ∀ d ∈ dets, exceedsThreshold d.signature asig = false) :
    searchLoop camera_id asig gid now dets = [] := by
  induction dets with
  | nil => rfl
  | cons det rest ih =>
      rw [searchLoop, h det (by simp)]
      simp only [Bool.false_eq_true, if_false]
      exact ih (fun d hd => h d (by simp [hd]))

theorem searchLoop_first (camera_id : String) (asig : Sig) (gid : String) (now : ℚ)
    (det : FrameDet) (post : List FrameDet)
    (hdet : exceedsThreshold det.signature asig = true) :
    ∀ pre : List FrameDet,
      (∀ d ∈ pre, exceedsThreshold d.signature asig = false) →
      searchLoop camera_id asig gid now (pre ++ det :: post)
        = [{ global_id := gid, camera_id := camera_id, location := det.bbox,
             timestamp := now }] := by
  intro pre
  induction pre with
  | nil =>
      intro _
      rw [List.nil_append, searchLoop, hdet]
      simp
  | cons p rest ih =>
      intro hpre
      rw [List.cons_append, searchLoop, hpre p (by simp)]
      simp only [Bool.false_eq_true, if_false]
      exact ih (fun d hd => hpre d (by simp [hd]))

/-- Claim C2: for every incoming alert, `search_for_target` publishes at most
one REID_MATCH; it uses the bbox of the first buffered detection whose cosine
similarity with the alert's signature exceeds 0.85 and stops there; the
published `global_id` is the alert's, or `"unknown"` if absent; and no
REID_MATCH is published when the alert has no signature, the buffer is empty,
or no buffered detection exceeds the threshold. -/
theorem search_for_target_first_over_threshold (cam : String) (dets : List FrameDet)
    (alert : AlertMsg) (now : ℚ) :
    (searchForTarget cam dets alert now).length ≤ 1
    ∧ (alert.signature = none → searchForTarget cam dets alert now = [])
    ∧ searchForTarget cam [] alert now = []
    ∧ (∀ s, alert.signature = some s →
        ((∀ d ∈ dets, ¬ (0.85 : ℝ) < sim d.signature s) →
          searchForTarget cam dets alert now = [])
        ∧ (∀ pre det post, dets = pre ++ det :: post →
            (∀ d ∈ pre, ¬ (0.85 : ℝ) < sim d.signature s) →
            (0.85 : ℝ) < sim det.signature s →
            searchForTarget cam dets alert now
              = [{ global_id := alert.global_id.getD ("unknown"), camera_id := cam,
                   location := det.bbox, timestamp := now }])) := by
  refine ⟨?_, ?_, ?_, ?_⟩
  · rw [searchForTarget]
    cases alert.signature with
    | none => simp
    | some s => exact searchLoop_length_le_one cam s _ now dets
  · intro h
    rw [searchForTarget, h]
  · rw [searchForTarget]
    cases alert.signature with
    | none => rfl
    | some s => rfl
  · intro s hs
    constructor
    · intro hall
      rw [searchForTarget, hs]
      refine searchLoop_none cam s _ now dets (fun d hd => ?_)
      have := hall d hd
      rw [← exceedsThreshold_iff] at this
      simpa using this
    · intro pre det post hsplit hpre hdet
      rw [searchForTarget, hs, hsplit]
      refine searchLoop_first cam s _ now det post ?_ pre (fun d hd => ?_)
      · exact (exceedsThreshold_iff det.signature s).mpr hdet
      · have := hpre d hd
        rw [← exceedsThreshold_iff] at this
        simpa using this

/-- Witness for Claim C2: a two-detection buffer where the first detection
already matches; exactly its bbox is published under the alert's id. -/
theorem search_for_target_first_over_threshold_witness :
    searchForTarget ("cam1")
        [{ bbox := [1, 2, 3, 4], signature := [1] },
         { bbox := [5, 6, 7, 8], signature := [1] }]
        { signature := some [1], global_id := some ("T0") } 9
      = [{ global_id := ("T0"), camera_id := ("cam1"), location := [1, 2, 3, 4],
           timestamp := 9 }] := by
  have h85 : (0.85 : ℝ) < sim [1] [1] :=
    (exceedsThreshold_iff [1] [1]).mp
      (by rw [exceedsThreshold, decide_eq_true_eq]; norm_num [dotQ, normSq, npEps])
  exact ((search_for_target_first_over_threshold ("cam1")
      [{ bbox := [1, 2, 3, 4], signature := [1] },
       { bbox := [5, 6, 7, 8], signature := [1] }]
      { signature := some [1], global_id := some ("T0") } 9).2.2.2 [1] rfl).2
    [] { bbox := [1, 2, 3, 4], signature := [1] } [{ bbox := [5, 6, 7, 8], signature := [1] }]
    rfl (by simp) h85

/-! ### Claim C8: algebraic properties of the similarity (corrected) -/

theorem sim_comm (a b : Sig) : sim a b = sim b a := by
  rw [sim, sim, dotQ_comm a b,
    mul_comm (Real.sqrt ((normSq a : ℚ) : ℝ)) (Real.sqrt ((normSq b : ℚ) : ℝ))]

theorem sim_self_eq (s : Sig) :
    sim s s = ((normSq s : ℚ) : ℝ) / (((normSq s : ℚ) : ℝ) + ((npEps : ℚ) : ℝ)) := by
  rw [sim, Real.mul_self_sqrt (by exact_mod_cast normSq_nonneg s)]
  rfl

theorem npEpsR_eq : ((npEps : ℚ) : ℝ) = 1 / 100000000 := by
  norm_num [npEps]

theorem sim_self_bounds (s : Sig) (hs : 1 ≤ normSq s) :
    (1 : ℝ) - 1 / 100000000 < sim s s ∧ sim s s < 1 ∧ (0.85 : ℝ) < sim s s := by
  rw [sim_self_eq, npEpsR_eq]
  have hq : (1 : ℝ) ≤ ((normSq s : ℚ) : ℝ) := by exact_mod_cast hs
  have hden : (0 : ℝ) < ((normSq s : ℚ) : ℝ) + 1 / 100000000 := by linarith
  refine ⟨?_, ?_, ?_⟩
  · rw [lt_div_iff₀ hden]
    nlinarith [hq]
  · rw [div_lt_one hden]
    linarith
  · rw [lt_div_iff₀ hden]
    nlinarith [hq]

/-- Claim C8 (amended): the similarity of `search_for_target` is symmetric for
all vectors; and for every vector whose squared norm is at least 1 — in
particular the unit-normalised signatures the feature extractor produces —
`sim s s` lies within `1e-8` of 1 (hence exceeds 0.85), and a camera agent
with one buffered detection of signature `s` that receives an alert carrying
the identical signature publishes exactly one REID_MATCH with that
detection's bbox.  (For non-zero vectors of tiny norm the stabiliser `1e-8`
drives the self-similarity below the threshold, so the claim's unrestricted
"every non-zero vector" version fails; see the counterexample.) -/
theorem similarity_symmetric_self_match (s : Sig) (hs : 1 ≤ normSq s) :
    (∀ a b : Sig, sim a b = sim b a)
    ∧ ((1 : ℝ) - 1 / 100000000 < sim s s ∧ sim s s < 1 ∧ (0.85 : ℝ) < sim s s)
    ∧ (∀ (bbox : Loc) (cam gid : String) (now : ℚ),
        searchForTarget cam [{ bbox := bbox, signature := s }]
            { signature := some s, global_id := some gid } now
          = [{ global_id := gid, camera_id := cam, location := bbox,
               timestamp := now }]) := by
  refine ⟨sim_comm, sim_self_bounds s hs, ?_⟩
  intro bbox cam gid now
  have h85 : exceedsThreshold s s = true :=
    (exceedsThreshold_iff s s).mpr (sim_self_bounds s hs).2.2
  simp [searchForTarget, searchLoop, h85]

/-- Witness for Claim C8 at the unit vector `[1]`. -/
theorem similarity_symmetric_self_match_witness :
    searchForTarget ("c0") [{ bbox := [1, 2, 3, 4], signature := [1] }]
        { signature := some [1], global_id := some ("T3") } 4
      = [{ global_id := ("T3"), camera_id := ("c0"), location := [1, 2, 3, 4],
           timestamp := 4 }] :=
  (similarity_symmetric_self_match [1]
      (by norm_num [normSq, dotQ])).2.2 [1, 2, 3, 4] ("c0") ("T3") 4

/-- Counterexample to Claim C8 as stated: the non-zero signature `[1/100000]`
has self-similarity `(1e-10)/(1e-10 + 1e-8) = 1/101`, far from 1 and below
0.85, and a camera agent holding that detection publishes no REID_MATCH for
an alert carrying the identical signature. -/
theorem similarity_self_match_counterexample :
    normSq [(1 : ℚ) / 100000] ≠ 0
    ∧ sim [(1 : ℚ) / 100000] [(1 : ℚ) / 100000] < 0.85
    ∧ searchForTarget ("c1") [{ bbox := [1, 2, 3, 4], signature := [(1 : ℚ) / 100000] }]
        { signature := some [(1 : ℚ) / 100000], global_id := some ("T0") } 9 = [] := by
  have hns : normSq [(1 : ℚ) / 100000] = 1 / 10000000000 := by
    norm_num [normSq, dotQ]
  have hlt : sim [(1 : ℚ) / 100000] [(1 : ℚ) / 100000] < 0.85 := by
    rw [sim_self_eq, npEpsR_eq, hns]
    rw [div_lt_iff₀ (by norm_num)]
    norm_num
  have hfalse : exceedsThreshold [(1 : ℚ) / 100000] [(1 : ℚ) / 100000] = false := by
    cases h : exceedsThreshold [(1 : ℚ) / 100000] [(1 : ℚ) / 100000] with
    | false => rfl
    | true =>
        exact absurd ((exceedsThreshold_iff _ _).mp h) (not_lt.mpr (le_of_lt hlt))
  refine ⟨by rw [hns]; norm_num, hlt, ?_⟩
  show searchLoop ("c1") [(1 : ℚ) / 100000] ("T0") 9
      [{ bbox := [1, 2, 3, 4], signature := [(1 : ℚ) / 100000] }] = []
  rw [searchLoop, hfalse]
  simp only [Bool.false_eq_true, if_false]
  rfl

/-! ### CameraNode.run: the per-cycle loop (Claim C3) -/

/-- Embedding of `CameraNode.run` over one thread lifetime.  Each list entry
is the outcome of that cycle's `self._get_frame()` call — `_get_frame` calls
the frame source directly, with no `try`/`except`: an exception
(`Except.error`), no frame (`Except.ok none`), or a frame.  `proc` is
`self.process_frame` (detector, feature extractor, publishing), which may
itself raise.  `run` wraps neither call in a handler, so any `Except.error`
escapes the `while` loop.  The result collects the frames successfully
processed in order, or is the first escaping exception; the end of the list
models the stop event being observed. -/
def runCycles {Frame Err : Type} (proc : Frame → Except Err Unit) :
    List (Except Err (Option Frame)) → Except Err (List Frame)
  | [] => Except.ok []
  | c :: rest =>
      match c with
      | Except.error e => Except.error e
      | Except.ok none => runCycles proc rest
      | Except.ok (some f) =>
          match proc f with
          | Except.error e => Except.error e
          | Except.ok _ => (runCycles proc rest).map (fun l => f :: l)

/-- Claim C3 (amended): `CameraNode.run` and `_get_frame` contain no exception
handling at all.  A frame-source exception propagates out of the loop at once
— it is not caught at the poll boundary and no stop flag is involved (only
Python's threading machinery confines it to that one thread) — and a
detector/extractor exception inside `process_frame` likewise terminates the
loop; the remaining cycles are never executed. -/
theorem camera_run_loop_propagates (Frame Err : Type) (proc : Frame → Except Err Unit)
    (e : Err) (rest : List (Except Err (Option Frame))) :
    runCycles proc (Except.error e :: rest) = Except.error e
    ∧ (∀ f : Frame, proc f = Except.error e →
        runCycles proc (Except.ok (some f) :: rest) = Except.error e) := by
  constructor
  · rfl
  · intro f hf
    simp [runCycles, hf]

/-- Witness for Claim C3: a concrete run where the first frame's processing
raises; the loop dies with that error and the later cycle never runs. -/
theorem camera_run_loop_propagates_witness :
    runCycles (fun _ : Nat => (Except.error 7 : Except Nat Unit))
        [Except.ok (some 1), Except.ok none]
      = Except.error 7 :=
  (camera_run_loop_propagates Nat Nat (fun _ => Except.error 7) 7
    [Except.ok none]).2 1 rfl

/-- Counterexample to Claim C3 as stated: a raising frame-source call is not
caught and not treated as a clean stop (the loop result is the propagated
error, not a successful termination), and a raising extractor kills the loop
instead of letting it continue — the second frame is never processed. -/
theorem camera_run_loop_counterexample :
    runCycles (fun _ : Nat => (Except.ok () : Except Nat Unit))
        [Except.error 5, Except.ok (some 3)]
      = Except.error 5
    ∧ runCycles (fun _ : Nat => (Except.ok () : Except Nat Unit))
        [Except.error 5, Except.ok (some 3)]
      ≠ Except.ok [3]
    ∧ runCycles (fun _ : Nat => (Except.ok () : Except Nat Unit))
        [Except.error 5, Except.ok (some 3)]
      ≠ Except.ok []
    ∧ runCycles (fun n : Nat => (Except.error (n + 10) : Except Nat Unit))
        [Except.ok (some 1), Except.ok (some 2)]
      = Except.error 11 := by
  refine ⟨rfl, ?_, ?_, rfl⟩
  · intro h
    exact Except.noConfusion h
  · intro h
    exact Except.noConfusion h

/-! ### The orchestrator's tracker consumption loop (Claim C4) -/

/-- An ID assignment message as published by `publish_id_assignment`. -/
structure IdAssignMsg where
  global_id : String
  camera_id : String
  signature : Sig
  timestamp : ℚ
deriving DecidableEq

/-- Embedding of the dispatch on one drained alert inside
`start_tracker_loop.loop`: `alert["key"]` raises `KeyError` (`Except.error`)
when the key is missing, while `alert.get("location")` does not.  All
subscripts are evaluated before the tracker is mutated or anything is
published, so a failing alert leaves the tracker unchanged.  Alerts of other
types are ignored. -/
def handleAlert (t : GlobalTracker) (a : AlertMsg) :
    Except Unit (GlobalTracker × List IdAssignMsg) :=
  match a.type with
  | none => Except.error ()
  | some ty =>
      if ty = "NEW_THREAT" then
        match a.camera_id, a.signature, a.timestamp with
        | some cam, some sig, some ts =>
            let r := registerNewThreat t cam sig ts
            Except.ok (r.2,
              [{ global_id := r.1, camera_id := cam, signature := sig,
                 timestamp := ts }])
        | _, _, _ => Except.error ()
      else if ty = "REID_MATCH" then
        match a.global_id, a.camera_id, a.timestamp with
        | some gid, some cam, some ts =>
            Except.ok (handleReidMatch t gid cam a.location ts, [])
        | _, _, _ => Except.error ()
      else Except.ok (t, [])

/-- Embedding of `for alert in drain(queue): ...` together with the
`try`/`except` that encloses the whole `for` loop: the first alert that
raises aborts the remainder of its batch (the handler sits outside the
`for`), keeping the state reached and the id assignments published so far. -/
def processBatch (t : GlobalTracker) : List AlertMsg → GlobalTracker × List IdAssignMsg
  | [] => (t, [])
  | a :: rest =>
      match handleAlert t a with
      | Except.error _ => (t, [])
      | Except.ok (t2, out) =>
          let r := processBatch t2 rest
          (r.1, out ++ r.2)

/-- The consumption loop across successive drains: one `processBatch` per
iteration of `while not stop_event.is_set()`; the `except` keeps the loop
alive between batches. -/
def trackerLoop (t : GlobalTracker) : List (List AlertMsg) → GlobalTracker
  | [] => t
  | b :: bs => trackerLoop (processBatch t b).1 bs

/-- Claim C4, evaluated at the failing input: a malformed alert (missing
`"type"`) followed by a well-formed NEW_THREAT in the same drained batch.
Because the `except` sits outside the `for` loop, the whole batch is
abandoned: the well-formed alert is never processed (no target registered,
no id assignment published), although it is processed when drained on its
own, and the consumption loop itself does survive to the next batch. -/
theorem tracker_batch_aborts_after_malformed :
    processBatch GlobalTracker.empty
        [{}, { type := some ("NEW_THREAT"), camera_id := some ("c0"),
               signature := some [1], timestamp := some 100 }]
      = (GlobalTracker.empty, [])
    ∧ (processBatch GlobalTracker.empty
        [{ type := some ("NEW_THREAT"), camera_id := some ("c0"),
           signature := some [1], timestamp := some 100 }]).1.targets ≠ []
    ∧ (∀ (t : GlobalTracker) (b : List AlertMsg) (bs : List (List AlertMsg)),
        trackerLoop t (b :: bs) = trackerLoop (processBatch t b).1 bs) := by
  refine ⟨rfl, ?_, fun t b bs => rfl⟩
  intro h
  simp [processBatch, handleAlert, registerNewThreat, GlobalTracker.empty, setA] at h

/-- Witness for Claim C4's loop-continuation component at concrete inputs. -/
theorem tracker_batch_aborts_after_malformed_witness :
    trackerLoop GlobalTracker.empty [[{}]]
      = trackerLoop (processBatch GlobalTracker.empty [{}]).1 [] :=
  tracker_batch_aborts_after_malformed.2.2 GlobalTracker.empty [{}] []

end MultiCam
